import Mathlib

/-!
Verification of the discovery-and-ranking engine of the movie API service
(`services/omdb_service.go`, `handlers/movie_handler.go`, `models/movie.go`).

The upstream OMDb HTTP API is modelled as an oracle (`OMDbAPI`) giving, for
every detail request and every search request, either the decoded JSON body
or a transport/read/parse failure carrying the Go error message.  The
service-layer functions `GetMovieByTitle`, `SearchMovies`,
`GetMoviesByGenre`, `getMoviesExcluding`, `GetRecommendations` and
`getGenreSearchTerms` are embedded as Lean functions over that oracle.

Instrumented variants (suffix `St`) additionally record the imdbID under
which each collected movie was deduplicated and the exact sequence of
upstream calls issued, so that claims about deduplication keys and about
which searches/fetches are issued can be stated; the plain functions are
their projections.

String handling: Go's `strings.ToLower` / `strings.EqualFold` /
`strings.Contains` are modelled on per-character code points with ASCII
case mapping, and `strconv.ParseFloat` is modelled for plain decimal
notation (optional sign, digits, at most one decimal point — no exponent,
hex, Inf or NaN forms), returning the exact value as an integer mantissa
together with the number of fraction digits.  `sort.Slice` is modelled by
its documented contract (a permutation that is sorted with respect to the
supplied less function, with no stability guarantee): the functions take
the sorting routine as a parameter and theorems quantify over every
routine satisfying the contract `SortSliceOK`.
-/

/-- ASCII lower-casing of one character code (models `strings.ToLower`
restricted to ASCII input). -/
def lowerCode (n : Nat) : Nat := if 65 ≤ n ∧ n ≤ 90 then n + 32 else n

/-- Character codes of a string after ASCII lower-casing. -/
def lowerCodes (s : String) : List Nat := s.data.map (fun c => lowerCode c.toNat)

/-- Raw character codes of a string. -/
def strCodes (s : String) : List Nat := s.data.map Char.toNat

/-- Substring test on code lists: does `hay` contain `sub` as a contiguous
run (models `strings.Contains` after the encoding of both sides)? -/
def substrB (sub : List Nat) : List Nat → Bool
  | [] => sub.isEmpty
  | c :: rest => List.isPrefixOf sub (c :: rest) || substrB sub rest

/-- Models `strings.Contains(strings.ToLower hay, strings.ToLower needle)`. -/
def containsLower (hay needle : String) : Bool := substrB (lowerCodes needle) (lowerCodes hay)

/-- Models `strings.Contains hay needle` (case-sensitive). -/
def containsStr (hay needle : String) : Bool := substrB (strCodes needle) (strCodes hay)

/-- Models `strings.EqualFold` for ASCII strings. -/
def eqFold (a b : String) : Bool := lowerCodes a == lowerCodes b

/-- Splitter for Go's `strings.Split(s, ", ")`: left-to-right scan taking
non-overlapping occurrences of the comma-space separator. -/
def splitCommaSpace : List Char → List Char → List (List Char)
  | [], cur => [cur.reverse]
  | [c], cur => [(c :: cur).reverse]
  | c1 :: c2 :: rest, cur =>
    if c1 = ',' ∧ c2 = ' ' then cur.reverse :: splitCommaSpace rest []
    else splitCommaSpace (c2 :: rest) (c1 :: cur)

/-- Models `strings.Split(s, ", ")`. -/
def goSplitCS (s : String) : List String := (splitCommaSpace s.data []).map (fun l => ⟨l⟩)

/-- Powers of ten as integers (structural, kernel-reducible). -/
def pow10 : Nat → Int
  | 0 => 1
  | n + 1 => 10 * pow10 n

/-- Decimal digit test on a character code. -/
def isDigitCode (n : Nat) : Bool := decide (48 ≤ n) && decide (n ≤ 57)

/-- Accumulate the value of a run of decimal digit codes. -/
def digitsVal : List Nat → Nat → Nat
  | [], acc => acc
  | c :: rest, acc => digitsVal rest (acc * 10 + (c - 48))

/-- Parse a plain decimal numeral from character codes.  The result
`(m, k)` denotes the exact value `m / 10^k`.  Models the accepting set of
`strconv.ParseFloat` restricted to plain decimal notation (optional sign,
digits, at most one decimal point; no exponent, hex, Inf or NaN). -/
def parseDecCodes (l : List Nat) : Option (Int × Nat) :=
  let sgn : Int := match l with
    | 43 :: _ => 1
    | 45 :: _ => -1
    | _ => 1
  let l1 : List Nat := match l with
    | 43 :: rest => rest
    | 45 :: rest => rest
    | _ => l
  let ip := l1.takeWhile isDigitCode
  let rest := l1.dropWhile isDigitCode
  match rest with
  | [] => if ip.isEmpty then none else some (sgn * (digitsVal ip 0 : Int), 0)
  | 46 :: frac =>
    if frac.all isDigitCode && !(ip.isEmpty && frac.isEmpty) then
      some (sgn * ((digitsVal ip 0 : Int) * pow10 frac.length + (digitsVal frac 0 : Int)), frac.length)
    else none
  | _ => none

/-- Models `strconv.ParseFloat(s, 64)` (plain decimal notation, exact
value as scaled integer); `none` is the error case. -/
def parseGoFloat (s : String) : Option (Int × Nat) := parseDecCodes (strCodes s)

/-- Value used by the service when `ParseFloat`'s error is ignored: the
parsed value, or `0` when parsing fails (Go leaves `rating` at `0`). -/
def ratingOf (s : String) : Int × Nat := (parseGoFloat s).getD (0, 0)

/-- Strict comparison of two scaled decimals by cross multiplication. -/
def keyLtB (a b : Int × Nat) : Bool := decide (a.1 * pow10 b.2 < b.1 * pow10 a.2)

/-- Models the `rating > 0` check after `rating, _ := strconv.ParseFloat(...)`. -/
def ratingPos (s : String) : Bool := keyLtB (0, 0) (ratingOf s)

/-- Rational value of a scaled decimal (for specification/proofs only). -/
def keyQ (p : Int × Nat) : ℚ := (p.1 : ℚ) / ((pow10 p.2 : Int) : ℚ)

/- ### Data model (`models/movie.go`) -/

/-- The fields of `models.OMDbResponse` read by the service layer
(title, year, genre, director, actors, plot, imdbRating, imdbID,
response sentinel and error text); the remaining JSON pass-through fields
are never consulted by the code under verification. -/
structure OMDbResponse where
  title : String
  year : String
  genre : String
  director : String
  actors : String
  plot : String
  imdbRating : String
  imdbID : String
  response : String
  error : String
deriving DecidableEq

/-- The fields of `models.SearchResult` read by the service layer
(`Title` and `ImdbID`). -/
structure SearchResult where
  title : String
  imdbID : String
deriving DecidableEq

/-- The fields of `models.SearchResponse` read by the service layer
(`Search` and the `Response` sentinel). -/
structure SearchResponse where
  search : List SearchResult
  response : String
deriving DecidableEq

/-- `models.MovieBrief`. -/
structure MovieBrief where
  title : String
  year : String
  imdbRating : String
  genre : String
  director : String
  plot : String
deriving DecidableEq

/-- `models.RecommendationsByCategory`. -/
structure RecommendationsByCategory where
  genreBased : List MovieBrief
  directorBased : List MovieBrief
  actorBased : List MovieBrief
deriving DecidableEq

/-- `models.RecommendationsResponse`. -/
structure RecommendationsResponse where
  favoriteMovie : String
  recommendations : RecommendationsByCategory
deriving DecidableEq

/- ### Upstream oracle and client (`services/omdb_service.go`) -/

/-- Oracle for the upstream HTTP exchanges: for each request, the decoded
body (before any service-level `Response == "False"` handling), or a
transport/read/parse failure carrying the wrapped Go error message. -/
structure OMDbAPI where
  details : String → Except String OMDbResponse
  search : String → Nat → Except String SearchResponse

/-- `makeRequest`: propagates transport failure and converts a body with
`Response == "False"` into the error `"OMDb API error: " + body.Error`. -/
def makeRequest (api : OMDbAPI) (title : String) : Except String OMDbResponse :=
  match api.details title with
  | .error e => .error e
  | .ok r => if r.response = "False" then .error ("OMDb API error: " ++ r.error) else .ok r

/-- `GetMovieByTitle`: a detail lookup through `makeRequest`. -/
def getMovieByTitle (api : OMDbAPI) (title : String) : Except String OMDbResponse :=
  makeRequest api title

/-- `SearchMovies`: returns the decoded search body unchecked (the
`Response == "False"` sentinel is left for the callers to inspect). -/
def searchMovies (api : OMDbAPI) (query : String) (page : Nat) : Except String SearchResponse :=
  api.search query page

/- ### Term expander (`getGenreSearchTerms`) -/

/-- The static genre-to-proxy-terms table of `getGenreSearchTerms`. -/
def genreTermsTable : List (String × List String) :=
  [("action", ["action", "adventure", "superhero", "martial arts", "spy"]),
   ("comedy", ["comedy", "funny", "humor", "romantic comedy", "parody"]),
   ("drama", ["drama", "emotional", "family", "biographical", "historical"]),
   ("horror", ["horror", "scary", "thriller", "supernatural", "zombie"]),
   ("sci-fi", ["science fiction", "sci-fi", "space", "future", "alien"]),
   ("romance", ["romance", "love", "romantic", "wedding", "relationship"]),
   ("thriller", ["thriller", "suspense", "mystery", "crime", "psychological"]),
   ("animation", ["animation", "animated", "cartoon", "pixar", "disney"]),
   ("fantasy", ["fantasy", "magic", "wizard", "medieval", "adventure"]),
   ("crime", ["crime", "gangster", "mafia", "detective", "police"])]

/-- Table lookup at key `strings.ToLower genre`: the table keys are ASCII
lower-case, so the map access is equality of the lower-cased genre with
the key. -/
def lookupGenre : List (String × List String) → String → Option (List String)
  | [], _ => none
  | (k, v) :: rest, g => if lowerCodes g == strCodes k then some v else lookupGenre rest g

/-- `getGenreSearchTerms`: table lookup with the 3-term fallback. -/
def getGenreSearchTerms (genre : String) : List String :=
  match lookupGenre genreTermsTable genre with
  | some terms => terms
  | none => [genre, "movie", "film"]

/- ### Instrumented collection state -/

/-- One upstream call issued by the service layer. -/
inductive UpCall where
  | search (term : String) (page : Nat)
  | details (title : String)
deriving DecidableEq

/-- Collection state: collected movies paired with the imdbID under which
they were deduplicated, the dedup set, and the upstream call log. -/
structure CollectSt where
  movies : List (String × MovieBrief)
  movieSet : List String
  calls : List UpCall
deriving DecidableEq

/-- The empty collection state. -/
def initSt : CollectSt := ⟨[], [], []⟩

/-- The `models.MovieBrief` literal built from fetched details. -/
def briefOf (d : OMDbResponse) : MovieBrief :=
  ⟨d.title, d.year, d.imdbRating, d.genre, d.director, d.plot⟩

/-- The `switch searchType` predicate of `getMoviesExcluding`
(case-insensitive substring containment against genre/director/actors;
`matches` stays false for any other `searchType`). -/
def facetMatch (searchType searchTerm : String) (d : OMDbResponse) : Bool :=
  if searchType = "genre" then containsLower d.genre searchTerm
  else if searchType = "director" then containsLower d.director searchTerm
  else if searchType = "actor" then containsLower d.actors searchTerm
  else false

/- ### `getMoviesExcluding` (facet-scoped collector) -/

/-- Body of the result loop of `getMoviesExcluding` for one search hit.
Returns the updated state and whether the `len(movies) >= limit` early
return fired. -/
def gmeHit (api : OMDbAPI) (searchTerm searchType excludeTitle : String) (limit : Nat)
    (st : CollectSt) (r : SearchResult) : CollectSt × Bool :=
  if st.movieSet.contains r.imdbID || eqFold r.title excludeTitle then (st, false)
  else
    let st1 : CollectSt := { st with calls := st.calls ++ [UpCall.details r.title] }
    match getMovieByTitle api r.title with
    | .error _ => (st1, false)
    | .ok d =>
      if d.response = "False" then (st1, false)
      else if facetMatch searchType searchTerm d then
        if ratingPos d.imdbRating then
          let st2 : CollectSt := { st1 with
            movies := st1.movies ++ [(r.imdbID, briefOf d)],
            movieSet := st1.movieSet ++ [r.imdbID] }
          (st2, decide (limit ≤ st2.movies.length))
        else (st1, false)
      else (st1, false)

/-- The result loop of `getMoviesExcluding` over one page of hits;
stops and reports `true` when the early return fires. -/
def gmeHits (api : OMDbAPI) (searchTerm searchType excludeTitle : String) (limit : Nat) :
    List SearchResult → CollectSt → CollectSt × Bool
  | [], st => (st, false)
  | r :: rs, st =>
    match gmeHit api searchTerm searchType excludeTitle limit st r with
    | (st1, true) => (st1, true)
    | (st1, false) => gmeHits api searchTerm searchType excludeTitle limit rs st1

/-- One page iteration of `getMoviesExcluding`: issue the search, skip the
page on failure or a `"False"` response, otherwise run the result loop. -/
def gmePage (api : OMDbAPI) (searchTerm searchType excludeTitle : String) (limit : Nat)
    (page : Nat) (st : CollectSt) : CollectSt × Bool :=
  let st1 : CollectSt := { st with calls := st.calls ++ [UpCall.search searchTerm page] }
  match searchMovies api searchTerm page with
  | .error _ => (st1, false)
  | .ok sr =>
    if sr.response = "False" then (st1, false)
    else gmeHits api searchTerm searchType excludeTitle limit sr.search st1

/-- The page loop of `getMoviesExcluding`; the early return aborts the
remaining pages. -/
def gmePages (api : OMDbAPI) (searchTerm searchType excludeTitle : String) (limit : Nat) :
    List Nat → CollectSt → CollectSt
  | [], st => st
  | p :: ps, st =>
    match gmePage api searchTerm searchType excludeTitle limit p st with
    | (st1, true) => st1
    | (st1, false) => gmePages api searchTerm searchType excludeTitle limit ps st1

/-- Instrumented `getMoviesExcluding`: pages 1 and 2 from the empty state. -/
def getMoviesExcludingSt (api : OMDbAPI) (searchTerm searchType excludeTitle : String)
    (limit : Nat) : CollectSt :=
  gmePages api searchTerm searchType excludeTitle limit [1, 2] initSt

/-- `getMoviesExcluding`: the returned slice and the (always nil) error. -/
def getMoviesExcluding (api : OMDbAPI) (searchTerm searchType excludeTitle : String)
    (limit : Nat) : List MovieBrief × Option String :=
  ((getMoviesExcludingSt api searchTerm searchType excludeTitle limit).movies.map Prod.snd, none)

/- ### `GetMoviesByGenre` (genre-listing collector) -/

/-- Body of the result loop of `GetMoviesByGenre` for one search hit.
The boolean reports whether the `len(allMovies) >= limit*2` break fired;
that break only leaves the result loop, not the page loop. -/
def gmbgHit (api : OMDbAPI) (genre : String) (limit : Nat)
    (st : CollectSt) (r : SearchResult) : CollectSt × Bool :=
  if st.movieSet.contains r.imdbID then (st, false)
  else
    let st1 : CollectSt := { st with calls := st.calls ++ [UpCall.details r.title] }
    match getMovieByTitle api r.title with
    | .error _ => (st1, false)
    | .ok d =>
      if d.response = "False" then (st1, false)
      else if containsLower d.genre genre then
        if ratingPos d.imdbRating then
          let st2 : CollectSt := { st1 with
            movies := st1.movies ++ [(r.imdbID, briefOf d)],
            movieSet := st1.movieSet ++ [r.imdbID] }
          (st2, decide (limit * 2 ≤ st2.movies.length))
        else (st1, false)
      else (st1, false)

/-- The result loop of `GetMoviesByGenre` over one page of hits; the break
only abandons the remaining hits of this page. -/
def gmbgHits (api : OMDbAPI) (genre : String) (limit : Nat) :
    List SearchResult → CollectSt → CollectSt
  | [], st => st
  | r :: rs, st =>
    match gmbgHit api genre limit st r with
    | (st1, true) => st1
    | (st1, false) => gmbgHits api genre limit rs st1

/-- One page iteration of `GetMoviesByGenre` for one search term. -/
def gmbgPage (api : OMDbAPI) (genre term : String) (limit : Nat)
    (page : Nat) (st : CollectSt) : CollectSt :=
  let st1 : CollectSt := { st with calls := st.calls ++ [UpCall.search term page] }
  match searchMovies api term page with
  | .error _ => st1
  | .ok sr =>
    if sr.response = "False" then st1
    else gmbgHits api genre limit sr.search st1

/-- The page loop of `GetMoviesByGenre`: pages run to the fixed bound with
no early exit at the page level. -/
def gmbgPages (api : OMDbAPI) (genre term : String) (limit : Nat) :
    List Nat → CollectSt → CollectSt
  | [], st => st
  | p :: ps, st => gmbgPages api genre term limit ps (gmbgPage api genre term limit p st)

/-- The term loop of `GetMoviesByGenre`: before each term, stop the whole
loop once `limit*2` movies are collected. -/
def gmbgTerms (api : OMDbAPI) (genre : String) (limit : Nat) :
    List String → CollectSt → CollectSt
  | [], st => st
  | t :: ts, st =>
    if limit * 2 ≤ st.movies.length then st
    else gmbgTerms api genre limit ts (gmbgPages api genre t limit [1, 2, 3] st)

/-- Instrumented `GetMoviesByGenre` before sorting and truncation. -/
def getMoviesByGenreSt (api : OMDbAPI) (genre : String) (limit : Nat) : CollectSt :=
  gmbgTerms api genre limit (getGenreSearchTerms genre) initSt

/-- `GetMoviesByGenre`, parametrized by the `sort.Slice` routine: collect,
sort by descending rating, truncate to `limit`, return a nil error. -/
def getMoviesByGenre (sortImpl : List MovieBrief → List MovieBrief) (api : OMDbAPI)
    (genre : String) (limit : Nat) : List MovieBrief × Option String :=
  let allMovies := (getMoviesByGenreSt api genre limit).movies.map Prod.snd
  let sorted := sortImpl allMovies
  (if limit < sorted.length then sorted.take limit else sorted, none)

/- ### `GetRecommendations` (orchestrator) -/

/-- Result state of the orchestrator before per-facet sorting: the seed's
canonical title, each facet list with its dedup keys, and the upstream
calls issued while building each facet. -/
structure RecState where
  favoriteTitle : String
  genreFacet : List (String × MovieBrief)
  directorFacet : List (String × MovieBrief)
  actorFacet : List (String × MovieBrief)
  genreCalls : List UpCall
  directorCalls : List UpCall
  actorCalls : List UpCall
deriving DecidableEq

/-- One facet loop of `GetRecommendations`: for each value in order, stop
once the facet holds 20 movies, otherwise append the collector's output
for the remaining quota (the collector's error is always nil, so the
`err == nil` guard always appends). -/
def facetLoop (api : OMDbAPI) (searchType excludeTitle : String) :
    List String → List (String × MovieBrief) → List UpCall →
    List (String × MovieBrief) × List UpCall
  | [], acc, calls => (acc, calls)
  | t :: ts, acc, calls =>
    if 20 ≤ acc.length then (acc, calls)
    else
      let st := getMoviesExcludingSt api t searchType excludeTitle (20 - acc.length)
      facetLoop api searchType excludeTitle ts (acc ++ st.movies) (calls ++ st.calls)

/-- Instrumented `GetRecommendations` before per-facet sorting: fetch the
seed, fail with the single `"favorite movie not found"` message on any
failure, then build the three facets from the seed's split genre text,
split director text, and first three actors. -/
def getRecommendationsSt (api : OMDbAPI) (favoriteMovie : String) : Except String RecState :=
  match getMovieByTitle api favoriteMovie with
  | .error _ => .error ("favorite movie not found: " ++ favoriteMovie)
  | .ok movieDetails =>
    if movieDetails.response = "False" then .error ("favorite movie not found: " ++ favoriteMovie)
    else
      let genreRes := facetLoop api "genre" movieDetails.title (goSplitCS movieDetails.genre) [] []
      let directorRes := facetLoop api "director" movieDetails.title (goSplitCS movieDetails.director) [] []
      let actors := goSplitCS movieDetails.actors
      let actorRes := facetLoop api "actor" movieDetails.title (actors.take (min 3 actors.length)) [] []
      .ok ⟨movieDetails.title, genreRes.1, directorRes.1, actorRes.1,
        genreRes.2, directorRes.2, actorRes.2⟩

/-- `GetRecommendations`, parametrized by the `sort.Slice` routine used by
`sortMoviesByRating` on each facet. -/
def getRecommendations (sortImpl : List MovieBrief → List MovieBrief) (api : OMDbAPI)
    (favoriteMovie : String) : Except String RecommendationsResponse :=
  match getRecommendationsSt api favoriteMovie with
  | .error e => .error e
  | .ok st =>
    .ok ⟨st.favoriteTitle,
      ⟨sortImpl (st.genreFacet.map Prod.snd),
       sortImpl (st.directorFacet.map Prod.snd),
       sortImpl (st.actorFacet.map Prod.snd)⟩⟩

/- ### Handler outcome classification (`handlers/movie_handler.go`) -/

/-- The externally visible status chosen by a handler. -/
inductive HandlerStatus where
  | badRequest
  | ok
  | notFound
  | internalError
deriving DecidableEq

/-- The recommendations handler's status mapping: empty parameter means
400; an error whose text contains `"not found"` means 404; any other
error means 500. -/
def recommendationsHandler (sortImpl : List MovieBrief → List MovieBrief) (api : OMDbAPI)
    (favoriteMovie : String) : HandlerStatus :=
  if favoriteMovie = "" then .badRequest
  else
    match getRecommendations sortImpl api favoriteMovie with
    | .error e => if containsStr e "not found" then .notFound else .internalError
    | .ok _ => .ok

/- ### The `sort.Slice` contract (`sortMoviesByRating`) -/

/-- The less function passed to `sort.Slice` by `sortMoviesByRating` and
`GetMoviesByGenre`: `ratingI > ratingJ` on the parsed ratings. -/
def movieLess (a b : MovieBrief) : Bool := keyLtB (ratingOf b.imdbRating) (ratingOf a.imdbRating)

/-- What Go documents for `sort.Slice(movies, less)`: the slice is
permuted into an order with no inversion under `less`.  Stability is
deliberately NOT part of the contract (`sort.Slice` is documented as not
guaranteed to be stable; the stable variant `sort.SliceStable` is not
used by this code). -/
def sortSliceAdmits (input output : List MovieBrief) : Prop :=
  input.Perm output ∧ output.Pairwise (fun x y => movieLess y x = false)

/-- A sorting routine satisfying the `sort.Slice` contract on every input. -/
def SortSliceOK (f : List MovieBrief → List MovieBrief) : Prop :=
  ∀ l, sortSliceAdmits l (f l)

/- ### A concrete routine satisfying the contract (for witnesses) -/

/-- Insertion into a list sorted by descending rating. -/
def insertByRating (a : MovieBrief) : List MovieBrief → List MovieBrief
  | [] => [a]
  | b :: bs => if movieLess b a then b :: insertByRating a bs else a :: b :: bs

/-- Insertion sort by descending rating: one specific routine meeting the
`sort.Slice` contract, used to instantiate witnesses. -/
def sortByRatingModel : List MovieBrief → List MovieBrief
  | [] => []
  | a :: as => insertByRating a (sortByRatingModel as)

/- ### Concrete upstream behaviors used by counterexamples and witnesses -/

/-- Two distinct movies with the same parsed rating, for exercising the
sort contract on ties. -/
def tieA : MovieBrief := ⟨"A", "2001", "7.0", "Drama", "D1", "p"⟩

/-- Second movie of the tied pair. -/
def tieB : MovieBrief := ⟨"B", "2002", "7.0", "Drama", "D2", "q"⟩

/-- Seed record whose genre text holds two genres. -/
def seedRec2 : OMDbResponse :=
  ⟨"Seed", "1999", "Action, Sci-Fi", "D", "A", "p", "9.0", "tt0", "True", ""⟩

/-- A catalog record matching both genres of `seedRec2`. -/
def movieRec2 : OMDbResponse :=
  ⟨"M", "2000", "Action, Sci-Fi", "D2", "A2", "p2", "8.0", "tt1", "True", ""⟩

/-- Upstream behavior where both genre-facet searches surface the same
movie; director/actor searches fail. -/
def api2 : OMDbAPI :=
  ⟨fun t =>
     if t = "Seed" then .ok seedRec2
     else if t = "M" then .ok movieRec2
     else .error "failed to make request: connection refused",
   fun q _ =>
     if q = "Action" ∨ q = "Sci-Fi" then .ok ⟨[⟨"M", "tt1"⟩], "True"⟩
     else .error "failed to make request: connection refused"⟩

/-- An upstream that always fails with a transport error. -/
def apiDown : OMDbAPI :=
  ⟨fun _ => .error "failed to make request: connection refused",
   fun _ _ => .error "failed to make request: connection refused"⟩

/-- A record whose rating is the literal "N/A". -/
def naRec : OMDbResponse := ⟨"N", "2000", "action", "D", "A", "p", "N/A", "tt9", "True", ""⟩

/-- An upstream where every detail fetch succeeds with rating "N/A". -/
def apiNA : OMDbAPI := ⟨fun _ => .ok naRec, fun _ _ => .ok ⟨[⟨"N", "tt9"⟩], "True"⟩⟩

/-- An upstream whose detail lookup echoes the queried title. -/
def apiTitled : OMDbAPI :=
  ⟨fun t => .ok ⟨t, "2000", "action", "D", "A", "p", "8.0", "ttx", "True", ""⟩,
   fun _ _ => .ok ⟨[⟨"M1", "tt1"⟩], "True"⟩⟩

/-- The detail record returned for the queried title "Matrix": the
upstream's fuzzy title lookup answers with the differently-titled record
"The Matrix". -/
def matrixHitRec : OMDbResponse :=
  ⟨"The Matrix", "1999", "Action, Sci-Fi", "W", "K", "p", "8.7", "tt0133093", "True", ""⟩

/-- An upstream where the search hit title ("Matrix") differs from the
title carried by the fetched detail record ("The Matrix"). -/
def apiAlias : OMDbAPI :=
  ⟨fun t => if t = "Matrix" then .ok matrixHitRec else .error "failed to make request: x",
   fun q _ => if q = "Action" then .ok ⟨[⟨"Matrix", "tt0133093"⟩], "True"⟩
     else .error "failed to make request: x"⟩

/-- Seed record for the counterexample: one genre "Sci-Fi" that sits in
the Term Expander's canonical mapping. -/
def neoRec : OMDbResponse :=
  ⟨"Neo", "2003", "Sci-Fi", "N/A", "N/A", "p", "7.0", "ttneo", "True", ""⟩

/-- Upstream where only the seed's detail lookup succeeds and every
search fails, exposing the exact search terms the orchestrator issues. -/
def api1 : OMDbAPI :=
  ⟨fun t => if t = "Neo" then .ok neoRec else .error "failed to make request: x",
   fun _ _ => .error "failed to make request: x"⟩

/-- The recommendation state computed for `api1` and seed "Neo". -/
def recSt1 : RecState :=
  ⟨"Neo", [], [], [],
   [UpCall.search "Sci-Fi" 1, UpCall.search "Sci-Fi" 2],
   [UpCall.search "N/A" 1, UpCall.search "N/A" 2],
   [UpCall.search "N/A" 1, UpCall.search "N/A" 2]⟩

/-- First of four identically-rated records matching genre "g". -/
def gRec1 : OMDbResponse := ⟨"M1", "2001", "g", "D", "A", "p", "5.0", "t1", "True", ""⟩

/-- Second record matching genre "g". -/
def gRec2 : OMDbResponse := ⟨"M2", "2002", "g", "D", "A", "p", "5.0", "t2", "True", ""⟩

/-- Third record matching genre "g". -/
def gRec3 : OMDbResponse := ⟨"M3", "2003", "g", "D", "A", "p", "5.0", "t3", "True", ""⟩

/-- Fourth record matching genre "g", surfaced on page 2. -/
def gRec4 : OMDbResponse := ⟨"M4", "2004", "g", "D", "A", "p", "5.0", "t4", "True", ""⟩

/-- Upstream for the genre-listing scenario: page 1 of term "g" returns
three matching hits, page 2 one more, page 3 fails. -/
def api6 : OMDbAPI :=
  ⟨fun t =>
     if t = "M1" then .ok gRec1
     else if t = "M2" then .ok gRec2
     else if t = "M3" then .ok gRec3
     else if t = "M4" then .ok gRec4
     else .error "failed to make request: x",
   fun q p =>
     if q = "g" ∧ p = 1 then .ok ⟨[⟨"M1", "t1"⟩, ⟨"M2", "t2"⟩, ⟨"M3", "t3"⟩], "True"⟩
     else if q = "g" ∧ p = 2 then .ok ⟨[⟨"M4", "t4"⟩], "True"⟩
     else .error "failed to make request: x"⟩

/-- Rational value of a movie's parsed rating (specification-side). -/
def ratingQ (b : MovieBrief) : ℚ := keyQ (ratingOf b.imdbRating)

theorem pow10_pos (n : Nat) : 0 < pow10 n := by
  induction n with
  | zero => simp [pow10]
  | succ n ih => simpa [pow10] using mul_pos (by norm_num : (0 : Int) < 10) ih

theorem keyLtB_iff (a b : Int × Nat) : keyLtB a b = true ↔ keyQ a < keyQ b := by
  have ha : (0 : ℚ) < ((pow10 a.2 : Int) : ℚ) := by exact_mod_cast pow10_pos a.2
  have hb : (0 : ℚ) < ((pow10 b.2 : Int) : ℚ) := by exact_mod_cast pow10_pos b.2
  unfold keyLtB keyQ
  rw [decide_eq_true_eq, div_lt_div_iff₀ ha hb]
  exact_mod_cast Iff.rfl

theorem movieLess_true_iff (a b : MovieBrief) : movieLess a b = true ↔ ratingQ b < ratingQ a :=
  keyLtB_iff (ratingOf b.imdbRating) (ratingOf a.imdbRating)

theorem movieLess_false_iff (a b : MovieBrief) : movieLess a b = false ↔ ratingQ a ≤ ratingQ b := by
  constructor
  · intro h
    refine not_lt.mp (fun hlt => ?_)
    have := (movieLess_true_iff a b).mpr hlt
    rw [h] at this
    exact Bool.false_ne_true this
  · intro h
    cases hml : movieLess a b with
    | false => rfl
    | true => exact absurd ((movieLess_true_iff a b).mp hml) (not_lt.mpr h)

theorem insertByRating_perm (a : MovieBrief) (l : List MovieBrief) :
    (insertByRating a l).Perm (a :: l) := by
  induction l with
  | nil => exact List.Perm.refl _
  | cons b bs ih =>
    unfold insertByRating
    cases hba : movieLess b a with
    | true =>
      rw [if_pos rfl]
      exact (ih.cons b).trans (List.Perm.swap a b bs)
    | false =>
      rw [if_neg Bool.false_ne_true]

theorem insertByRating_pairwise (a : MovieBrief) (l : List MovieBrief)
    (h : l.Pairwise (fun x y => movieLess y x = false)) :
    (insertByRating a l).Pairwise (fun x y => movieLess y x = false) := by
  induction l with
  | nil => simp [insertByRating]
  | cons b bs ih =>
    rcases List.pairwise_cons.mp h with ⟨hb, hbs⟩
    unfold insertByRating
    cases hba : movieLess b a with
    | true =>
      rw [if_pos rfl]
      refine List.pairwise_cons.mpr ⟨?_, ih hbs⟩
      intro x hx
      have hx' : x ∈ a :: bs := (insertByRating_perm a bs).subset hx
      rcases List.mem_cons.mp hx' with rfl | hx''
      · exact (movieLess_false_iff _ b).mpr (le_of_lt ((movieLess_true_iff b _).mp hba))
      · exact hb x hx''
    | false =>
      rw [if_neg Bool.false_ne_true]
      refine List.pairwise_cons.mpr ⟨?_, h⟩
      intro x hx
      have hba' : ratingQ b ≤ ratingQ a := (movieLess_false_iff b a).mp hba
      rcases List.mem_cons.mp hx with rfl | hx''
      · exact hba
      · have hxb : ratingQ x ≤ ratingQ b := (movieLess_false_iff x b).mp (hb x hx'')
        exact (movieLess_false_iff x a).mpr (hxb.trans hba')

theorem sortByRatingModel_ok : SortSliceOK sortByRatingModel := by
  intro l
  induction l with
  | nil => exact ⟨List.Perm.refl _, List.Pairwise.nil⟩
  | cons a as ih =>
    rcases ih with ⟨hperm, hpair⟩
    constructor
    · exact ((hperm.cons a).trans (insertByRating_perm a (sortByRatingModel as)).symm)
    · exact insertByRating_pairwise a (sortByRatingModel as) hpair

/- ### Characterization of the collector steps -/

theorem ratingPos_iff (s : String) :
    ratingPos s = true ↔ ∃ m k, parseGoFloat s = some (m, k) ∧ 0 < m := by
  unfold ratingPos ratingOf keyLtB
  cases h : parseGoFloat s with
  | none => simp [h, pow10]
  | some p =>
    rcases p with ⟨m, k⟩
    simp only [h, Option.getD_some, decide_eq_true_eq, Option.some.injEq, Prod.mk.injEq,
      pow10, zero_mul, mul_one]
    constructor
    · intro hlt
      exact ⟨m, k, ⟨rfl, rfl⟩, hlt⟩
    · rintro ⟨m', k', ⟨h1, h2⟩, hm⟩
      subst h1
      exact hm

/-- Case analysis of one `getMoviesExcluding` hit step: either the
collected movies and dedup set are unchanged (and the early return does
not fire), or the hit was unseen, not the excluded title, its fetch
succeeded, its rating parsed strictly positive, and exactly that movie
was appended under the hit's imdbID. -/
theorem gmeHit_spec (api : OMDbAPI) (term stype excl : String) (limit : Nat)
    (st : CollectSt) (r : SearchResult) :
    ((gmeHit api term stype excl limit st r).1.movies = st.movies ∧
     (gmeHit api term stype excl limit st r).1.movieSet = st.movieSet ∧
     (gmeHit api term stype excl limit st r).2 = false) ∨
    (∃ d : OMDbResponse,
      getMovieByTitle api r.title = .ok d ∧
      r.imdbID ∉ st.movieSet ∧
      eqFold r.title excl = false ∧
      facetMatch stype term d = true ∧
      ratingPos d.imdbRating = true ∧
      (gmeHit api term stype excl limit st r).1.movies = st.movies ++ [(r.imdbID, briefOf d)] ∧
      (gmeHit api term stype excl limit st r).1.movieSet = st.movieSet ++ [r.imdbID] ∧
      (gmeHit api term stype excl limit st r).2 = decide (limit ≤ st.movies.length + 1)) := by
  by_cases hmem : r.imdbID ∈ st.movieSet
  · left; simp [gmeHit, hmem]
  · cases hex : eqFold r.title excl with
    | true => left; simp [gmeHit, hmem, hex]
    | false =>
      cases hfetch : getMovieByTitle api r.title with
      | error e => left; simp [gmeHit, hmem, hex, hfetch]
      | ok d =>
        by_cases hresp : d.response = "False"
        · left; simp [gmeHit, hmem, hex, hfetch, hresp]
        · cases hmatch : facetMatch stype term d with
          | false => left; simp [gmeHit, hmem, hex, hfetch, hresp, hmatch]
          | true =>
            cases hpos : ratingPos d.imdbRating with
            | false => left; simp [gmeHit, hmem, hex, hfetch, hresp, hmatch, hpos]
            | true =>
              right
              refine ⟨d, rfl, hmem, rfl, hmatch, hpos, ?_, ?_, ?_⟩ <;>
                simp [gmeHit, hmem, hex, hfetch, hresp, hmatch, hpos]

/-- The hit step only ever appends a detail-fetch call to the log. -/
theorem gmeHit_calls (api : OMDbAPI) (term stype excl : String) (limit : Nat)
    (st : CollectSt) (r : SearchResult) :
    (gmeHit api term stype excl limit st r).1.calls = st.calls ∨
    (gmeHit api term stype excl limit st r).1.calls = st.calls ++ [UpCall.details r.title] := by
  by_cases hmem : r.imdbID ∈ st.movieSet
  · left; simp [gmeHit, hmem]
  · cases hex : eqFold r.title excl with
    | true => left; simp [gmeHit, hmem, hex]
    | false =>
      cases hfetch : getMovieByTitle api r.title with
      | error e => right; simp [gmeHit, hmem, hex, hfetch]
      | ok d =>
        by_cases hresp : d.response = "False"
        · right; simp [gmeHit, hmem, hex, hfetch, hresp]
        · cases hmatch : facetMatch stype term d with
          | false => right; simp [gmeHit, hmem, hex, hfetch, hresp, hmatch]
          | true =>
            cases hpos : ratingPos d.imdbRating with
            | false => right; simp [gmeHit, hmem, hex, hfetch, hresp, hmatch, hpos]
            | true => right; simp [gmeHit, hmem, hex, hfetch, hresp, hmatch, hpos]

/-- Preservation of a predicate on collected movies and dedup set along
the result loop of `getMoviesExcluding`. -/
theorem gmeHits_preserve (api : OMDbAPI) (term stype excl : String) (limit : Nat)
    (P : List (String × MovieBrief) → List String → Prop)
    (hstep : ∀ ms set r d, getMovieByTitle api (SearchResult.title r) = Except.ok d →
      r.imdbID ∉ set → eqFold r.title excl = false → facetMatch stype term d = true →
      ratingPos d.imdbRating = true → P ms set →
      P (ms ++ [(r.imdbID, briefOf d)]) (set ++ [r.imdbID])) :
    ∀ (rs : List SearchResult) (st : CollectSt), P st.movies st.movieSet →
      P (gmeHits api term stype excl limit rs st).1.movies
        (gmeHits api term stype excl limit rs st).1.movieSet := by
  intro rs
  induction rs with
  | nil => intro st h; exact h
  | cons r rs ih =>
    intro st h
    have hone : P (gmeHit api term stype excl limit st r).1.movies
        (gmeHit api term stype excl limit st r).1.movieSet := by
      rcases gmeHit_spec api term stype excl limit st r with
        ⟨hm, hs, _⟩ | ⟨d, hok, hmem, hex, hmatch, hpos, hm, hs, _⟩
      · rw [hm, hs]; exact h
      · rw [hm, hs]; exact hstep _ _ _ _ hok hmem hex hmatch hpos h
    unfold gmeHits
    cases hg : gmeHit api term stype excl limit st r with
    | mk st1 flag =>
      rw [hg] at hone
      cases flag with
      | true => exact hone
      | false => exact ih st1 hone

theorem gmePage_error (api : OMDbAPI) (term stype excl : String) (limit page : Nat)
    (st : CollectSt) (e : String) (hs : searchMovies api term page = .error e) :
    gmePage api term stype excl limit page st =
      ({ st with calls := st.calls ++ [UpCall.search term page] }, false) := by
  simp [gmePage, hs]

theorem gmePage_falseResp (api : OMDbAPI) (term stype excl : String) (limit page : Nat)
    (st : CollectSt) (sr : SearchResponse) (hs : searchMovies api term page = .ok sr)
    (hresp : sr.response = "False") :
    gmePage api term stype excl limit page st =
      ({ st with calls := st.calls ++ [UpCall.search term page] }, false) := by
  simp [gmePage, hs, hresp]

theorem gmePage_ok (api : OMDbAPI) (term stype excl : String) (limit page : Nat)
    (st : CollectSt) (sr : SearchResponse) (hs : searchMovies api term page = .ok sr)
    (hresp : ¬sr.response = "False") :
    gmePage api term stype excl limit page st =
      gmeHits api term stype excl limit sr.search
        { st with calls := st.calls ++ [UpCall.search term page] } := by
  simp [gmePage, hs, hresp]

theorem gmePage_preserve (api : OMDbAPI) (term stype excl : String) (limit : Nat)
    (P : List (String × MovieBrief) → List String → Prop)
    (hstep : ∀ ms set r d, getMovieByTitle api (SearchResult.title r) = Except.ok d →
      r.imdbID ∉ set → eqFold r.title excl = false → facetMatch stype term d = true →
      ratingPos d.imdbRating = true → P ms set →
      P (ms ++ [(r.imdbID, briefOf d)]) (set ++ [r.imdbID]))
    (page : Nat) (st : CollectSt) (h : P st.movies st.movieSet) :
    P (gmePage api term stype excl limit page st).1.movies
      (gmePage api term stype excl limit page st).1.movieSet := by
  cases hs : searchMovies api term page with
  | error e => rw [gmePage_error api term stype excl limit page st e hs]; exact h
  | ok sr =>
    by_cases hresp : sr.response = "False"
    · rw [gmePage_falseResp api term stype excl limit page st sr hs hresp]; exact h
    · rw [gmePage_ok api term stype excl limit page st sr hs hresp]
      exact gmeHits_preserve api term stype excl limit P hstep sr.search _ h

theorem gmePages_preserve (api : OMDbAPI) (term stype excl : String) (limit : Nat)
    (P : List (String × MovieBrief) → List String → Prop)
    (hstep : ∀ ms set r d, getMovieByTitle api (SearchResult.title r) = Except.ok d →
      r.imdbID ∉ set → eqFold r.title excl = false → facetMatch stype term d = true →
      ratingPos d.imdbRating = true → P ms set →
      P (ms ++ [(r.imdbID, briefOf d)]) (set ++ [r.imdbID])) :
    ∀ (ps : List Nat) (st : CollectSt), P st.movies st.movieSet →
      P (gmePages api term stype excl limit ps st).movies
        (gmePages api term stype excl limit ps st).movieSet := by
  intro ps
  induction ps with
  | nil => intro st h; exact h
  | cons p ps ih =>
    intro st h
    have hone := gmePage_preserve api term stype excl limit P hstep p st h
    unfold gmePages
    cases hp : gmePage api term stype excl limit p st with
    | mk st1 flag =>
      rw [hp] at hone
      cases flag with
      | true => exact hone
      | false => exact ih st1 hone

/-- Preservation of a movies/dedup-set predicate by the whole facet
collector, starting from the empty state. -/
theorem getMoviesExcludingSt_preserve (api : OMDbAPI) (term stype excl : String) (limit : Nat)
    (P : List (String × MovieBrief) → List String → Prop)
    (hinit : P [] [])
    (hstep : ∀ ms set r d, getMovieByTitle api (SearchResult.title r) = Except.ok d →
      r.imdbID ∉ set → eqFold r.title excl = false → facetMatch stype term d = true →
      ratingPos d.imdbRating = true → P ms set →
      P (ms ++ [(r.imdbID, briefOf d)]) (set ++ [r.imdbID])) :
    P (getMoviesExcludingSt api term stype excl limit).movies
      (getMoviesExcludingSt api term stype excl limit).movieSet :=
  gmePages_preserve api term stype excl limit P hstep [1, 2] initSt hinit

/-- The result loop never adds search calls to the log. -/
theorem gmeHits_calls_search (api : OMDbAPI) (term stype excl : String) (limit : Nat) :
    ∀ (rs : List SearchResult) (st : CollectSt) (t : String) (p : Nat),
      UpCall.search t p ∈ (gmeHits api term stype excl limit rs st).1.calls ↔
        UpCall.search t p ∈ st.calls := by
  intro rs
  induction rs with
  | nil => intro st t p; exact Iff.rfl
  | cons r rs ih =>
    intro st t p
    have hc := gmeHit_calls api term stype excl limit st r
    have hone : ∀ q : Nat, ∀ s : String, UpCall.search s q ∈ (gmeHit api term stype excl limit st r).1.calls ↔
        UpCall.search s q ∈ st.calls := by
      intro q s
      rcases hc with h | h <;> simp [h]
    unfold gmeHits
    cases hg : gmeHit api term stype excl limit st r with
    | mk st1 flag =>
      rw [hg] at hone
      cases flag with
      | true => exact hone p t
      | false => exact (ih st1 t p).trans (hone p t)

theorem gmePage_calls_search (api : OMDbAPI) (term stype excl : String) (limit page : Nat)
    (st : CollectSt) (t : String) (p : Nat) :
    UpCall.search t p ∈ (gmePage api term stype excl limit page st).1.calls ↔
      (UpCall.search t p ∈ st.calls ∨ (t = term ∧ p = page)) := by
  cases hs : searchMovies api term page with
  | error e =>
    rw [gmePage_error api term stype excl limit page st e hs]
    simp
  | ok sr =>
    by_cases hresp : sr.response = "False"
    · rw [gmePage_falseResp api term stype excl limit page st sr hs hresp]
      simp
    · rw [gmePage_ok api term stype excl limit page st sr hs hresp]
      rw [gmeHits_calls_search api term stype excl limit sr.search _ t p]
      simp

/-- Every search call issued during the page loop of `getMoviesExcluding`
was in the log already or uses the loop's term and one of its pages. -/
theorem gmePages_calls_search (api : OMDbAPI) (term stype excl : String) (limit : Nat) :
    ∀ (ps : List Nat) (st : CollectSt) (t : String) (p : Nat),
      UpCall.search t p ∈ (gmePages api term stype excl limit ps st).calls →
        UpCall.search t p ∈ st.calls ∨ (t = term ∧ p ∈ ps) := by
  intro ps
  induction ps with
  | nil => intro st t p h; exact Or.inl h
  | cons q ps ih =>
    intro st t p h
    have hone := gmePage_calls_search api term stype excl limit q st t p
    unfold gmePages at h
    cases hp : gmePage api term stype excl limit q st with
    | mk st1 flag =>
      rw [hp] at h hone
      cases flag with
      | true =>
        rcases hone.mp h with h' | ⟨rfl, rfl⟩
        · exact Or.inl h'
        · exact Or.inr ⟨rfl, List.mem_cons_self _ _⟩
      | false =>
        rcases ih st1 t p h with h' | ⟨rfl, hmem⟩
        · rcases hone.mp h' with h'' | ⟨rfl, rfl⟩
          · exact Or.inl h''
          · exact Or.inr ⟨rfl, List.mem_cons_self _ _⟩
        · exact Or.inr ⟨rfl, List.mem_cons_of_mem _ hmem⟩

/-- Every search call issued by `getMoviesExcluding` uses its search term
and page 1 or page 2. -/
theorem getMoviesExcludingSt_calls_search (api : OMDbAPI) (term stype excl : String)
    (limit : Nat) (t : String) (p : Nat)
    (h : UpCall.search t p ∈ (getMoviesExcludingSt api term stype excl limit).calls) :
    t = term ∧ (p = 1 ∨ p = 2) := by
  rcases gmePages_calls_search api term stype excl limit [1, 2] initSt t p h with h' | ⟨rfl, hmem⟩
  · exact absurd h' (by simp [initSt])
  · refine ⟨rfl, ?_⟩
    simpa using hmem

example : goSplitCS "Action, Sci-Fi" = ["Action", "Sci-Fi"] := by decide

example : getGenreSearchTerms "jazz" = ["jazz", "movie", "film"] := by decide

example : getGenreSearchTerms "Sci-Fi" = ["science fiction", "sci-fi", "space", "future", "alien"] := by decide

example : parseGoFloat "8.7" = some (87, 1) := by decide

example : parseGoFloat "N/A" = none := by decide

example : ratingPos "0.0" = false := by decide

example : ratingPos "7.5" = true := by decide

example : eqFold "The MATRIX" "the matrix" = true := by decide

example : containsLower "Action, Sci-Fi" "sci-fi" = true := by decide

/-- Case analysis of one `GetMoviesByGenre` hit step. -/
theorem gmbgHit_spec (api : OMDbAPI) (genre : String) (limit : Nat)
    (st : CollectSt) (r : SearchResult) :
    ((gmbgHit api genre limit st r).1.movies = st.movies ∧
     (gmbgHit api genre limit st r).1.movieSet = st.movieSet ∧
     (gmbgHit api genre limit st r).2 = false) ∨
    (∃ d : OMDbResponse,
      getMovieByTitle api r.title = .ok d ∧
      r.imdbID ∉ st.movieSet ∧
      containsLower d.genre genre = true ∧
      ratingPos d.imdbRating = true ∧
      (gmbgHit api genre limit st r).1.movies = st.movies ++ [(r.imdbID, briefOf d)] ∧
      (gmbgHit api genre limit st r).1.movieSet = st.movieSet ++ [r.imdbID] ∧
      (gmbgHit api genre limit st r).2 = decide (limit * 2 ≤ st.movies.length + 1)) := by
  by_cases hmem : r.imdbID ∈ st.movieSet
  · left; simp [gmbgHit, hmem]
  · cases hfetch : getMovieByTitle api r.title with
    | error e => left; simp [gmbgHit, hmem, hfetch]
    | ok d =>
      by_cases hresp : d.response = "False"
      · left; simp [gmbgHit, hmem, hfetch, hresp]
      · cases hmatch : containsLower d.genre genre with
        | false => left; simp [gmbgHit, hmem, hfetch, hresp, hmatch]
        | true =>
          cases hpos : ratingPos d.imdbRating with
          | false => left; simp [gmbgHit, hmem, hfetch, hresp, hmatch, hpos]
          | true =>
            right
            refine ⟨d, rfl, hmem, hmatch, hpos, ?_, ?_, ?_⟩ <;>
              simp [gmbgHit, hmem, hfetch, hresp, hmatch, hpos]

/-- The genre-listing hit step only ever appends a detail-fetch call. -/
theorem gmbgHit_calls (api : OMDbAPI) (genre : String) (limit : Nat)
    (st : CollectSt) (r : SearchResult) :
    (gmbgHit api genre limit st r).1.calls = st.calls ∨
    (gmbgHit api genre limit st r).1.calls = st.calls ++ [UpCall.details r.title] := by
  by_cases hmem : r.imdbID ∈ st.movieSet
  · left; simp [gmbgHit, hmem]
  · cases hfetch : getMovieByTitle api r.title with
    | error e => right; simp [gmbgHit, hmem, hfetch]
    | ok d =>
      by_cases hresp : d.response = "False"
      · right; simp [gmbgHit, hmem, hfetch, hresp]
      · cases hmatch : containsLower d.genre genre with
        | false => right; simp [gmbgHit, hmem, hfetch, hresp, hmatch]
        | true =>
          cases hpos : ratingPos d.imdbRating with
          | false => right; simp [gmbgHit, hmem, hfetch, hresp, hmatch, hpos]
          | true => right; simp [gmbgHit, hmem, hfetch, hresp, hmatch, hpos]

theorem gmbgHits_preserve (api : OMDbAPI) (genre : String) (limit : Nat)
    (P : List (String × MovieBrief) → List String → Prop)
    (hstep : ∀ ms set r d, getMovieByTitle api (SearchResult.title r) = Except.ok d →
      r.imdbID ∉ set → containsLower d.genre genre = true →
      ratingPos d.imdbRating = true → P ms set →
      P (ms ++ [(r.imdbID, briefOf d)]) (set ++ [r.imdbID])) :
    ∀ (rs : List SearchResult) (st : CollectSt), P st.movies st.movieSet →
      P (gmbgHits api genre limit rs st).movies (gmbgHits api genre limit rs st).movieSet := by
  intro rs
  induction rs with
  | nil => intro st h; exact h
  | cons r rs ih =>
    intro st h
    have hone : P (gmbgHit api genre limit st r).1.movies
        (gmbgHit api genre limit st r).1.movieSet := by
      rcases gmbgHit_spec api genre limit st r with
        ⟨hm, hs, _⟩ | ⟨d, hok, hmem, hmatch, hpos, hm, hs, _⟩
      · rw [hm, hs]; exact h
      · rw [hm, hs]; exact hstep _ _ _ _ hok hmem hmatch hpos h
    unfold gmbgHits
    cases hg : gmbgHit api genre limit st r with
    | mk st1 flag =>
      rw [hg] at hone
      cases flag with
      | true => exact hone
      | false => exact ih st1 hone

theorem gmbgPage_error (api : OMDbAPI) (genre term : String) (limit page : Nat)
    (st : CollectSt) (e : String) (hs : searchMovies api term page = .error e) :
    gmbgPage api genre term limit page st =
      { st with calls := st.calls ++ [UpCall.search term page] } := by
  simp [gmbgPage, hs]

theorem gmbgPage_falseResp (api : OMDbAPI) (genre term : String) (limit page : Nat)
    (st : CollectSt) (sr : SearchResponse) (hs : searchMovies api term page = .ok sr)
    (hresp : sr.response = "False") :
    gmbgPage api genre term limit page st =
      { st with calls := st.calls ++ [UpCall.search term page] } := by
  simp [gmbgPage, hs, hresp]

theorem gmbgPage_ok (api : OMDbAPI) (genre term : String) (limit page : Nat)
    (st : CollectSt) (sr : SearchResponse) (hs : searchMovies api term page = .ok sr)
    (hresp : ¬sr.response = "False") :
    gmbgPage api genre term limit page st =
      gmbgHits api genre limit sr.search
        { st with calls := st.calls ++ [UpCall.search term page] } := by
  simp [gmbgPage, hs, hresp]

theorem gmbgPage_preserve (api : OMDbAPI) (genre term : String) (limit : Nat)
    (P : List (String × MovieBrief) → List String → Prop)
    (hstep : ∀ ms set r d, getMovieByTitle api (SearchResult.title r) = Except.ok d →
      r.imdbID ∉ set → containsLower d.genre genre = true →
      ratingPos d.imdbRating = true → P ms set →
      P (ms ++ [(r.imdbID, briefOf d)]) (set ++ [r.imdbID]))
    (page : Nat) (st : CollectSt) (h : P st.movies st.movieSet) :
    P (gmbgPage api genre term limit page st).movies
      (gmbgPage api genre term limit page st).movieSet := by
  cases hs : searchMovies api term page with
  | error e => rw [gmbgPage_error api genre term limit page st e hs]; exact h
  | ok sr =>
    by_cases hresp : sr.response = "False"
    · rw [gmbgPage_falseResp api genre term limit page st sr hs hresp]; exact h
    · rw [gmbgPage_ok api genre term limit page st sr hs hresp]
      exact gmbgHits_preserve api genre limit P hstep sr.search _ h

theorem gmbgPages_preserve (api : OMDbAPI) (genre term : String) (limit : Nat)
    (P : List (String × MovieBrief) → List String → Prop)
    (hstep : ∀ ms set r d, getMovieByTitle api (SearchResult.title r) = Except.ok d →
      r.imdbID ∉ set → containsLower d.genre genre = true →
      ratingPos d.imdbRating = true → P ms set →
      P (ms ++ [(r.imdbID, briefOf d)]) (set ++ [r.imdbID])) :
    ∀ (ps : List Nat) (st : CollectSt), P st.movies st.movieSet →
      P (gmbgPages api genre term limit ps st).movies
        (gmbgPages api genre term limit ps st).movieSet := by
  intro ps
  induction ps with
  | nil => intro st h; exact h
  | cons p ps ih =>
    intro st h
    exact ih _ (gmbgPage_preserve api genre term limit P hstep p st h)

theorem gmbgTerms_preserve (api : OMDbAPI) (genre : String) (limit : Nat)
    (P : List (String × MovieBrief) → List String → Prop)
    (hstep : ∀ ms set r d, getMovieByTitle api (SearchResult.title r) = Except.ok d →
      r.imdbID ∉ set → containsLower d.genre genre = true →
      ratingPos d.imdbRating = true → P ms set →
      P (ms ++ [(r.imdbID, briefOf d)]) (set ++ [r.imdbID])) :
    ∀ (ts : List String) (st : CollectSt), P st.movies st.movieSet →
      P (gmbgTerms api genre limit ts st).movies
        (gmbgTerms api genre limit ts st).movieSet := by
  intro ts
  induction ts with
  | nil => intro st h; exact h
  | cons t ts ih =>
    intro st h
    unfold gmbgTerms
    by_cases hlen : limit * 2 ≤ st.movies.length
    · rw [if_pos hlen]; exact h
    · rw [if_neg hlen]
      exact ih _ (gmbgPages_preserve api genre t limit P hstep [1, 2, 3] st h)

/-- Preservation of a movies/dedup-set predicate by the whole
genre-listing collection phase. -/
theorem getMoviesByGenreSt_preserve (api : OMDbAPI) (genre : String) (limit : Nat)
    (P : List (String × MovieBrief) → List String → Prop)
    (hinit : P [] [])
    (hstep : ∀ ms set r d, getMovieByTitle api (SearchResult.title r) = Except.ok d →
      r.imdbID ∉ set → containsLower d.genre genre = true →
      ratingPos d.imdbRating = true → P ms set →
      P (ms ++ [(r.imdbID, briefOf d)]) (set ++ [r.imdbID])) :
    P (getMoviesByGenreSt api genre limit).movies
      (getMoviesByGenreSt api genre limit).movieSet :=
  gmbgTerms_preserve api genre limit P hstep (getGenreSearchTerms genre) initSt hinit

theorem gmbgHits_calls_search (api : OMDbAPI) (genre : String) (limit : Nat) :
    ∀ (rs : List SearchResult) (st : CollectSt) (t : String) (p : Nat),
      UpCall.search t p ∈ (gmbgHits api genre limit rs st).calls ↔
        UpCall.search t p ∈ st.calls := by
  intro rs
  induction rs with
  | nil => intro st t p; exact Iff.rfl
  | cons r rs ih =>
    intro st t p
    have hc := gmbgHit_calls api genre limit st r
    have hone : ∀ q : Nat, ∀ s : String,
        UpCall.search s q ∈ (gmbgHit api genre limit st r).1.calls ↔
          UpCall.search s q ∈ st.calls := by
      intro q s
      rcases hc with h | h <;> simp [h]
    unfold gmbgHits
    cases hg : gmbgHit api genre limit st r with
    | mk st1 flag =>
      rw [hg] at hone
      cases flag with
      | true => exact hone p t
      | false => exact (ih st1 t p).trans (hone p t)

theorem gmbgPage_calls_search (api : OMDbAPI) (genre term : String) (limit page : Nat)
    (st : CollectSt) (t : String) (p : Nat) :
    UpCall.search t p ∈ (gmbgPage api genre term limit page st).calls ↔
      (UpCall.search t p ∈ st.calls ∨ (t = term ∧ p = page)) := by
  cases hs : searchMovies api term page with
  | error e =>
    rw [gmbgPage_error api genre term limit page st e hs]
    simp
  | ok sr =>
    by_cases hresp : sr.response = "False"
    · rw [gmbgPage_falseResp api genre term limit page st sr hs hresp]
      simp
    · rw [gmbgPage_ok api genre term limit page st sr hs hresp]
      rw [gmbgHits_calls_search api genre limit sr.search _ t p]
      simp

theorem gmbgPages_calls_search (api : OMDbAPI) (genre term : String) (limit : Nat) :
    ∀ (ps : List Nat) (st : CollectSt) (t : String) (p : Nat),
      UpCall.search t p ∈ (gmbgPages api genre term limit ps st).calls →
        UpCall.search t p ∈ st.calls ∨ (t = term ∧ p ∈ ps) := by
  intro ps
  induction ps with
  | nil => intro st t p h; exact Or.inl h
  | cons q ps ih =>
    intro st t p h
    unfold gmbgPages at h
    rcases ih _ t p h with h' | ⟨rfl, hmem⟩
    · rcases (gmbgPage_calls_search api genre term limit q st t p).mp h' with h'' | ⟨rfl, rfl⟩
      · exact Or.inl h''
      · exact Or.inr ⟨rfl, List.mem_cons_self _ _⟩
    · exact Or.inr ⟨rfl, List.mem_cons_of_mem _ hmem⟩

theorem gmbgTerms_calls_search (api : OMDbAPI) (genre : String) (limit : Nat) :
    ∀ (ts : List String) (st : CollectSt) (t : String) (p : Nat),
      UpCall.search t p ∈ (gmbgTerms api genre limit ts st).calls →
        UpCall.search t p ∈ st.calls ∨ (t ∈ ts ∧ (p = 1 ∨ p = 2 ∨ p = 3)) := by
  intro ts
  induction ts with
  | nil => intro st t p h; exact Or.inl h
  | cons g gs ih =>
    intro st t p h
    unfold gmbgTerms at h
    by_cases hlen : limit * 2 ≤ st.movies.length
    · rw [if_pos hlen] at h; exact Or.inl h
    · rw [if_neg hlen] at h
      rcases ih _ t p h with h' | ⟨hmem, hp⟩
      · rcases gmbgPages_calls_search api genre g limit [1, 2, 3] st t p h' with h'' | ⟨rfl, hpm⟩
        · exact Or.inl h''
        · refine Or.inr ⟨List.mem_cons_self _ _, ?_⟩
          simpa using hpm
      · exact Or.inr ⟨List.mem_cons_of_mem _ hmem, hp⟩

/-- Every search call issued by the genre-listing collection uses one of
the expanded search terms and page 1, 2 or 3. -/
theorem getMoviesByGenreSt_calls_search (api : OMDbAPI) (genre : String) (limit : Nat)
    (t : String) (p : Nat)
    (h : UpCall.search t p ∈ (getMoviesByGenreSt api genre limit).calls) :
    t ∈ getGenreSearchTerms genre ∧ (p = 1 ∨ p = 2 ∨ p = 3) := by
  rcases gmbgTerms_calls_search api genre limit (getGenreSearchTerms genre) initSt t p h with
    h' | hres
  · exact absurd h' (by simp [initSt])
  · exact hres

/-- Once the `limit*2` cap is reached, the term loop starts no further
term (it returns its state unchanged). -/
theorem gmbgTerms_stop (api : OMDbAPI) (genre : String) (limit : Nat)
    (ts : List String) (st : CollectSt) (h : limit * 2 ≤ st.movies.length) :
    gmbgTerms api genre limit ts st = st := by
  cases ts with
  | nil => rfl
  | cons t ts => unfold gmbgTerms; rw [if_pos h]

/-- A successful `GetMovieByTitle` never carries the `"False"` sentinel
(`makeRequest` converts it into an error). -/
theorem getMovieByTitle_ok_ne_false (api : OMDbAPI) (t : String) (d : OMDbResponse)
    (h : getMovieByTitle api t = Except.ok d) : ¬d.response = "False" := by
  unfold getMovieByTitle makeRequest at h
  cases hd : api.details t with
  | error e => rw [hd] at h; exact Except.noConfusion h
  | ok r =>
    rw [hd] at h
    by_cases hresp : r.response = "False"
    · simp [hresp] at h
    · simp [hresp] at h
      rw [← h]
      exact hresp

/-- A failed seed lookup yields the single "favorite movie not found"
error, whatever the reason for the failure. -/
theorem getRecommendationsSt_error (api : OMDbAPI) (fav e : String)
    (h : getMovieByTitle api fav = Except.error e) :
    getRecommendationsSt api fav = Except.error ("favorite movie not found: " ++ fav) := by
  unfold getRecommendationsSt
  rw [h]

/-- A successful seed lookup yields the three facet loops over the seed's
split genre text, split director text, and first three actors. -/
theorem getRecommendationsSt_ok (api : OMDbAPI) (fav : String) (rec : OMDbResponse)
    (h : getMovieByTitle api fav = Except.ok rec) :
    getRecommendationsSt api fav = Except.ok
      ⟨rec.title,
       (facetLoop api "genre" rec.title (goSplitCS rec.genre) [] []).1,
       (facetLoop api "director" rec.title (goSplitCS rec.director) [] []).1,
       (facetLoop api "actor" rec.title
         ((goSplitCS rec.actors).take (min 3 (goSplitCS rec.actors).length)) [] []).1,
       (facetLoop api "genre" rec.title (goSplitCS rec.genre) [] []).2,
       (facetLoop api "director" rec.title (goSplitCS rec.director) [] []).2,
       (facetLoop api "actor" rec.title
         ((goSplitCS rec.actors).take (min 3 (goSplitCS rec.actors).length)) [] []).2⟩ := by
  have hresp := getMovieByTitle_ok_ne_false api fav rec h
  simp [getRecommendationsSt, h, hresp]

/-- Every search call logged by a facet loop was already logged or uses
one of the loop's terms at page 1 or 2. -/
theorem facetLoop_calls_search (api : OMDbAPI) (stype excl : String) :
    ∀ (terms : List String) (acc : List (String × MovieBrief)) (calls : List UpCall)
      (t : String) (p : Nat),
      UpCall.search t p ∈ (facetLoop api stype excl terms acc calls).2 →
        UpCall.search t p ∈ calls ∨ (t ∈ terms ∧ (p = 1 ∨ p = 2)) := by
  intro terms
  induction terms with
  | nil => intro acc calls t p h; exact Or.inl h
  | cons g gs ih =>
    intro acc calls t p h
    unfold facetLoop at h
    by_cases hlen : 20 ≤ acc.length
    · rw [if_pos hlen] at h; exact Or.inl h
    · rw [if_neg hlen] at h
      rcases ih _ _ t p h with h' | ⟨hmem, hp⟩
      · rcases List.mem_append.mp h' with h'' | h''
        · exact Or.inl h''
        · have hx := getMoviesExcludingSt_calls_search api g stype excl (20 - acc.length) t p h''
          refine Or.inr ⟨?_, hx.2⟩
          rw [hx.1]
          exact List.mem_cons_self _ _
      · exact Or.inr ⟨List.mem_cons_of_mem _ hmem, hp⟩

/-- Length bound along the result loop of `getMoviesExcluding`: starting
strictly below the limit, the result stays at most the limit, and stays
strictly below it unless the early return fired. -/
theorem gmeHits_len (api : OMDbAPI) (term stype excl : String) (limit : Nat) :
    ∀ (rs : List SearchResult) (st : CollectSt), st.movies.length < limit →
      (gmeHits api term stype excl limit rs st).1.movies.length ≤ limit ∧
      ((gmeHits api term stype excl limit rs st).2 = false →
        (gmeHits api term stype excl limit rs st).1.movies.length < limit) := by
  intro rs
  induction rs with
  | nil => intro st h; exact ⟨le_of_lt h, fun _ => h⟩
  | cons r rs ih =>
    intro st h
    rcases gmeHit_spec api term stype excl limit st r with
      ⟨hm, _, hf⟩ | ⟨d, _, _, _, _, _, hm, _, hf⟩
    · unfold gmeHits
      cases hg : gmeHit api term stype excl limit st r with
      | mk st1 flag =>
        rw [hg] at hm hf
        simp only at hm hf
        subst hf
        exact ih st1 (by rw [hm]; exact h)
    · unfold gmeHits
      cases hg : gmeHit api term stype excl limit st r with
      | mk st1 flag =>
        rw [hg] at hm hf
        simp only at hm hf
        subst hf
        have hlen1 : st1.movies.length = st.movies.length + 1 := by
          rw [hm]; simp
        by_cases hcap : limit ≤ st.movies.length + 1
        · rw [decide_eq_true hcap]
          refine ⟨?_, ?_⟩
          · show st1.movies.length ≤ limit
            omega
          · intro hfalse
            exact Bool.noConfusion hfalse
        · rw [decide_eq_false hcap]
          exact ih st1 (by omega)

theorem gmePage_len (api : OMDbAPI) (term stype excl : String) (limit page : Nat)
    (st : CollectSt) (h : st.movies.length < limit) :
    (gmePage api term stype excl limit page st).1.movies.length ≤ limit ∧
    ((gmePage api term stype excl limit page st).2 = false →
      (gmePage api term stype excl limit page st).1.movies.length < limit) := by
  cases hs : searchMovies api term page with
  | error e =>
    rw [gmePage_error api term stype excl limit page st e hs]
    exact ⟨le_of_lt h, fun _ => h⟩
  | ok sr =>
    by_cases hresp : sr.response = "False"
    · rw [gmePage_falseResp api term stype excl limit page st sr hs hresp]
      exact ⟨le_of_lt h, fun _ => h⟩
    · rw [gmePage_ok api term stype excl limit page st sr hs hresp]
      exact gmeHits_len api term stype excl limit sr.search _ h

theorem gmePages_len (api : OMDbAPI) (term stype excl : String) (limit : Nat) :
    ∀ (ps : List Nat) (st : CollectSt), st.movies.length < limit →
      (gmePages api term stype excl limit ps st).movies.length ≤ limit := by
  intro ps
  induction ps with
  | nil => intro st h; exact le_of_lt h
  | cons p ps ih =>
    intro st h
    have hone := gmePage_len api term stype excl limit p st h
    unfold gmePages
    cases hp : gmePage api term stype excl limit p st with
    | mk st1 flag =>
      rw [hp] at hone
      cases flag with
      | true => exact hone.1
      | false => exact ih st1 (hone.2 rfl)

/-- With a positive limit, `getMoviesExcluding` collects at most `limit`
movies. -/
theorem getMoviesExcludingSt_len (api : OMDbAPI) (term stype excl : String) (limit : Nat)
    (h : 1 ≤ limit) :
    (getMoviesExcludingSt api term stype excl limit).movies.length ≤ limit :=
  gmePages_len api term stype excl limit [1, 2] initSt (by simpa [initSt] using h)

/-- Each facet loop keeps its accumulated list within the cap of 20. -/
theorem facetLoop_len (api : OMDbAPI) (stype excl : String) :
    ∀ (terms : List String) (acc : List (String × MovieBrief)) (calls : List UpCall),
      acc.length ≤ 20 → (facetLoop api stype excl terms acc calls).1.length ≤ 20 := by
  intro terms
  induction terms with
  | nil => intro acc calls h; exact h
  | cons g gs ih =>
    intro acc calls h
    unfold facetLoop
    by_cases hlen : 20 ≤ acc.length
    · rw [if_pos hlen]; exact h
    · rw [if_neg hlen]
      refine ih _ _ ?_
      have hlt : acc.length < 20 := Nat.lt_of_not_le hlen
      have hc := getMoviesExcludingSt_len api g stype excl (20 - acc.length) (by omega)
      simp only [List.length_append]
      omega

/-- When every search for a term fails, the page loop of the
genre-listing collector leaves the collected movies unchanged. -/
theorem gmbgPages_movies_fail (api : OMDbAPI) (genre term : String) (limit : Nat)
    (hfail : ∀ p, ∃ e, searchMovies api term p = Except.error e) :
    ∀ (ps : List Nat) (st : CollectSt),
      (gmbgPages api genre term limit ps st).movies = st.movies := by
  intro ps
  induction ps with
  | nil => intro st; rfl
  | cons p ps ih =>
    intro st
    obtain ⟨e, he⟩ := hfail p
    unfold gmbgPages
    rw [gmbgPage_error api genre term limit p st e he]
    exact ih _

/-- When every search fails, the whole genre-listing collection collects
nothing beyond its starting state. -/
theorem gmbgTerms_movies_fail (api : OMDbAPI) (genre : String) (limit : Nat)
    (hfail : ∀ t p, ∃ e, searchMovies api t p = Except.error e) :
    ∀ (ts : List String) (st : CollectSt),
      (gmbgTerms api genre limit ts st).movies = st.movies := by
  intro ts
  induction ts with
  | nil => intro st; rfl
  | cons t ts ih =>
    intro st
    unfold gmbgTerms
    by_cases hlen : limit * 2 ≤ st.movies.length
    · rw [if_pos hlen]
    · rw [if_neg hlen]
      exact (ih _).trans (gmbgPages_movies_fail api genre t limit (hfail t) [1, 2, 3] st)

/-- A successful table lookup returns a list stored in the table. -/
theorem lookupGenre_mem :
    ∀ (table : List (String × List String)) (g : String) (ts : List String),
      lookupGenre table g = some ts → ∃ k, (k, ts) ∈ table := by
  intro table
  induction table with
  | nil => intro g ts h; exact absurd h (by simp [lookupGenre])
  | cons kv rest ih =>
    intro g ts h
    rcases kv with ⟨k, v⟩
    unfold lookupGenre at h
    cases hc : (lowerCodes g == strCodes k) with
    | true =>
      rw [hc, if_pos rfl] at h
      injection h with h'
      subst h'
      exact ⟨k, List.mem_cons_self _ _⟩
    | false =>
      rw [hc, if_neg Bool.false_ne_true] at h
      obtain ⟨k', hk'⟩ := ih g ts h
      exact ⟨k', List.mem_cons_of_mem _ hk'⟩

/-- C9: for every genre input the Term Expander returns a non-empty
sequence of search terms, and for any input not found in the canonical
mapping (matched case-insensitively) it returns exactly the three terms
[input, "movie", "film"] in that order. -/
theorem genreTerms_nonempty_and_fallback (genre : String) :
    getGenreSearchTerms genre ≠ [] ∧
    (lookupGenre genreTermsTable genre = none →
      getGenreSearchTerms genre = [genre, "movie", "film"]) := by
  constructor
  · have htable : ∀ kv ∈ genreTermsTable, kv.2 ≠ ([] : List String) := by decide
    unfold getGenreSearchTerms
    cases h : lookupGenre genreTermsTable genre with
    | none => simp
    | some ts =>
      obtain ⟨k, hk⟩ := lookupGenre_mem genreTermsTable genre ts h
      exact htable (k, ts) hk
  · intro h
    unfold getGenreSearchTerms
    rw [h]

/-- C9 witness: the unrecognized genre "jazz" gets the exact fallback. -/
theorem genreTerms_nonempty_and_fallback_witness :
    getGenreSearchTerms "jazz" ≠ [] ∧ getGenreSearchTerms "jazz" = ["jazz", "movie", "film"] :=
  ⟨(genreTerms_nonempty_and_fallback "jazz").1,
   (genreTerms_nonempty_and_fallback "jazz").2 (by decide)⟩

/-- C3 counterexample: `sort.Slice` (used by `sortMoviesByRating`) only
guarantees a sorted permutation, not stability; the order-reversing
output `[tieB, tieA]` on the equal-rating input `[tieA, tieB]` is
admitted by its contract, so equal-rating candidates need not retain
their input order. -/
theorem ranker_stability_cex :
    sortSliceAdmits [tieA, tieB] [tieB, tieA] ∧
    ratingOf tieA.imdbRating = ratingOf tieB.imdbRating ∧
    tieA ≠ tieB := by
  refine ⟨⟨List.Perm.swap tieB tieA [], ?_⟩, by decide, by decide⟩
  decide

/-- C3 amended: every output admitted by the `sort.Slice` contract for
the Ranker's less function is sorted non-increasingly by parsed rating
and is a permutation of the input (equal lengths); the relative order of
equal-rating candidates is not specified. -/
theorem ranker_sorted_desc (input output : List MovieBrief)
    (h : sortSliceAdmits input output) :
    output.Pairwise (fun x y => ratingQ y ≤ ratingQ x) ∧ output.length = input.length := by
  rcases h with ⟨hp, hpw⟩
  exact ⟨hpw.imp (fun hxy => (movieLess_false_iff _ _).mp hxy), hp.symm.length_eq⟩

/-- C3 witness: the amended theorem applied to a concrete admitted sort
of the tied pair. -/
theorem ranker_sorted_desc_witness :
    (sortByRatingModel [tieA, tieB]).Pairwise (fun x y => ratingQ y ≤ ratingQ x) ∧
    (sortByRatingModel [tieA, tieB]).length = ([tieA, tieB] : List MovieBrief).length :=
  ranker_sorted_desc [tieA, tieB] (sortByRatingModel [tieA, tieB])
    (sortByRatingModel_ok [tieA, tieB])

/-- C2 amended: within one collector call, no two collected movies share
a dedup identifier (the search hit's imdbID). -/
theorem collector_ids_nodup (api : OMDbAPI) (term stype excl : String) (limit : Nat) :
    ((getMoviesExcludingSt api term stype excl limit).movies.map Prod.fst).Nodup := by
  refine (getMoviesExcludingSt_preserve api term stype excl limit
    (fun ms set => (ms.map Prod.fst).Nodup ∧ ∀ id ∈ ms.map Prod.fst, id ∈ set)
    (by simp) ?_).1
  intro ms set r d hok hmem hex hmatch hpos hP
  rcases hP with ⟨hnd, hsub⟩
  constructor
  · rw [List.map_append, List.nodup_append]
    refine ⟨hnd, by simp, ?_⟩
    intro a ha hb
    simp only [List.map_cons, List.map_nil, List.mem_singleton] at hb
    subst hb
    exact hmem (hsub _ ha)
  · intro id hid
    rw [List.map_append] at hid
    rcases List.mem_append.mp hid with h1 | h2
    · exact List.mem_append_left _ (hsub _ h1)
    · simp only [List.map_cons, List.map_nil, List.mem_singleton] at h2
      subst h2
      exact List.mem_append_right _ (by simp)

/-- C2 counterexample: the dedup set of `getMoviesExcluding` is rebuilt
on every call, so accumulating the genre facet across the two genre
values of the seed "Seed" (genre "Action, Sci-Fi") collects the same
catalog identifier "tt1" twice into one facet list, and the final
genre-based list of the recommendation result carries that movie twice. -/
theorem recommendation_facet_dup_ids_cex :
    (getRecommendationsSt api2 "Seed").toOption.map (fun st => st.genreFacet.map Prod.fst) =
      some ["tt1", "tt1"] ∧
    ¬(["tt1", "tt1"] : List String).Nodup ∧
    (getRecommendations sortByRatingModel api2 "Seed").toOption.map
      (fun r => r.recommendations.genreBased) = some [briefOf movieRec2, briefOf movieRec2] :=
  ⟨rfl, by decide, rfl⟩

/-- C10: the genre-listing operation returns a nil error for every
upstream behavior; when every search fails, it collects nothing (the
empty list is its only non-success signal). -/
theorem getMoviesByGenre_nil_error (sortImpl : List MovieBrief → List MovieBrief)
    (api : OMDbAPI) (genre : String) (limit : Nat) :
    (getMoviesByGenre sortImpl api genre limit).2 = none ∧
    ((∀ t p, ∃ e, api.search t p = Except.error e) →
      (getMoviesByGenreSt api genre limit).movies = []) := by
  constructor
  · rfl
  · intro hfail
    exact gmbgTerms_movies_fail api genre limit (fun t p => hfail t p)
      (getGenreSearchTerms genre) initSt

/-- C10 witness: with a fully failing upstream, the genre listing yields
a nil error and an empty collection. -/
theorem getMoviesByGenre_nil_error_witness :
    (getMoviesByGenre sortByRatingModel apiDown "action" 15).2 = none ∧
    (getMoviesByGenreSt apiDown "action" 15).movies = [] :=
  ⟨(getMoviesByGenre_nil_error sortByRatingModel apiDown "action" 15).1,
   (getMoviesByGenre_nil_error sortByRatingModel apiDown "action" 15).2
     (fun _ _ => ⟨"failed to make request: connection refused", rfl⟩)⟩

/-- C8: every candidate the collector emits has a rating string that
parses to a strictly positive value; the collector never reports an
error; the same holds on the genre-listing collection; and when every
successful fetch carries rating "N/A" the collector's output is empty
rather than a failure. -/
theorem candidates_positive_rating (api : OMDbAPI) (term stype excl genre : String)
    (limit : Nat) :
    (∀ b ∈ (getMoviesExcluding api term stype excl limit).1,
      ∃ m k, parseGoFloat b.imdbRating = some (m, k) ∧ 0 < m) ∧
    (getMoviesExcluding api term stype excl limit).2 = none ∧
    (∀ b ∈ (getMoviesByGenreSt api genre limit).movies.map Prod.snd,
      ∃ m k, parseGoFloat b.imdbRating = some (m, k) ∧ 0 < m) ∧
    ((∀ t d, getMovieByTitle api t = Except.ok d → d.imdbRating = "N/A") →
      (getMoviesExcluding api term stype excl limit).1 = []) := by
  have hg : ∀ pb ∈ (getMoviesExcludingSt api term stype excl limit).movies,
      ratingPos pb.2.imdbRating = true ∧
      ∃ d, pb.2 = briefOf d ∧ ∃ t, getMovieByTitle api t = Except.ok d := by
    refine getMoviesExcludingSt_preserve api term stype excl limit
      (fun ms _ => ∀ pb ∈ ms, ratingPos pb.2.imdbRating = true ∧
        ∃ d, pb.2 = briefOf d ∧ ∃ t, getMovieByTitle api t = Except.ok d)
      (by simp) ?_
    intro ms set r d hok hmem hex hmatch hpos hP pb hpb
    rcases List.mem_append.mp hpb with h1 | h2
    · exact hP pb h1
    · simp only [List.mem_singleton] at h2
      subst h2
      exact ⟨hpos, d, rfl, r.title, hok⟩
  have hb : ∀ pb ∈ (getMoviesByGenreSt api genre limit).movies,
      ratingPos pb.2.imdbRating = true := by
    refine getMoviesByGenreSt_preserve api genre limit
      (fun ms _ => ∀ pb ∈ ms, ratingPos pb.2.imdbRating = true) (by simp) ?_
    intro ms set r d hok hmem hmatch hpos hP pb hpb
    rcases List.mem_append.mp hpb with h1 | h2
    · exact hP pb h1
    · simp only [List.mem_singleton] at h2
      subst h2
      exact hpos
  refine ⟨?_, rfl, ?_, ?_⟩
  · intro b hbmem
    have hbmem' : b ∈ (getMoviesExcludingSt api term stype excl limit).movies.map Prod.snd :=
      hbmem
    rcases List.mem_map.mp hbmem' with ⟨pb, hpb, rfl⟩
    exact (ratingPos_iff _).mp (hg pb hpb).1
  · intro b hbmem
    rcases List.mem_map.mp hbmem with ⟨pb, hpb, rfl⟩
    exact (ratingPos_iff _).mp (hb pb hpb)
  · intro hNA
    rw [List.eq_nil_iff_forall_not_mem]
    intro b hbmem
    have hbmem' : b ∈ (getMoviesExcludingSt api term stype excl limit).movies.map Prod.snd :=
      hbmem
    rcases List.mem_map.mp hbmem' with ⟨pb, hpb, hsnd⟩
    rcases hg pb hpb with ⟨hpos, d, hbd, t, hok⟩
    have hna := hNA t d hok
    rw [hbd] at hpos
    simp only [briefOf] at hpos
    rw [hna] at hpos
    exact absurd hpos (by decide)

/-- C8 witness: a concrete collected candidate has a positive parsed
rating, and an all-"N/A" upstream yields an empty facet list. -/
theorem candidates_positive_rating_witness :
    (∃ m k, parseGoFloat (briefOf movieRec2).imdbRating = some (m, k) ∧ 0 < m) ∧
    (getMoviesExcluding apiNA "action" "genre" "Seed" 5).1 = [] := by
  constructor
  · refine (candidates_positive_rating api2 "Action" "genre" "Seed" "x" 5).1
      (briefOf movieRec2) ?_
    decide
  · refine (candidates_positive_rating apiNA "action" "genre" "Seed" "x" 5).2.2.2 ?_
    intro t d hok
    have hd : naRec = d := by
      simpa [getMovieByTitle, makeRequest, apiNA, naRec] using hok
    rw [← hd]
    rfl

/-- C7 counterexample: with `limit = 0` the post-append check
`len(movies) >= limit` fires only after the first append, so the
collector returns one candidate, exceeding the limit. -/
theorem collector_limit_cap_cex :
    (getMoviesExcluding api2 "Action" "genre" "Seed" 0).1.length = 1 ∧
    ¬((getMoviesExcluding api2 "Action" "genre" "Seed" 0).1.length ≤ 0) :=
  ⟨rfl, by decide⟩

/-- C7 amended: for every positive limit the collector returns at most
`limit` candidates, and every facet list of a recommendation result has
at most 20 entries. -/
theorem collector_and_facet_caps :
    (∀ (api : OMDbAPI) (term stype excl : String) (limit : Nat), 1 ≤ limit →
      (getMoviesExcluding api term stype excl limit).1.length ≤ limit) ∧
    (∀ (sortImpl : List MovieBrief → List MovieBrief) (api : OMDbAPI) (fav : String)
      (resp : RecommendationsResponse), SortSliceOK sortImpl →
      getRecommendations sortImpl api fav = Except.ok resp →
      resp.recommendations.genreBased.length ≤ 20 ∧
      resp.recommendations.directorBased.length ≤ 20 ∧
      resp.recommendations.actorBased.length ≤ 20) := by
  constructor
  · intro api term stype excl limit h
    have hlen := getMoviesExcludingSt_len api term stype excl limit h
    simpa [getMoviesExcluding] using hlen
  · intro sortImpl api fav resp hsort hok
    unfold getRecommendations at hok
    cases hst : getRecommendationsSt api fav with
    | error e => rw [hst] at hok; exact Except.noConfusion hok
    | ok st =>
      rw [hst] at hok
      injection hok with hok'
      subst hok'
      cases hfav : getMovieByTitle api fav with
      | error e =>
        rw [getRecommendationsSt_error api fav e hfav] at hst
        exact Except.noConfusion hst
      | ok rec =>
        rw [getRecommendationsSt_ok api fav rec hfav] at hst
        injection hst with hst'
        subst hst'
        have hlen : ∀ l : List MovieBrief, (sortImpl l).length = l.length :=
          fun l => ((hsort l).1.length_eq).symm
        refine ⟨?_, ?_, ?_⟩
        · show (sortImpl ((facetLoop api "genre" rec.title
            (goSplitCS rec.genre) [] []).1.map Prod.snd)).length ≤ 20
          rw [hlen, List.length_map]
          exact facetLoop_len api "genre" rec.title (goSplitCS rec.genre) [] [] (by simp)
        · show (sortImpl ((facetLoop api "director" rec.title
            (goSplitCS rec.director) [] []).1.map Prod.snd)).length ≤ 20
          rw [hlen, List.length_map]
          exact facetLoop_len api "director" rec.title (goSplitCS rec.director) [] [] (by simp)
        · show (sortImpl ((facetLoop api "actor" rec.title
            ((goSplitCS rec.actors).take (min 3 (goSplitCS rec.actors).length)) [] []).1.map
              Prod.snd)).length ≤ 20
          rw [hlen, List.length_map]
          exact facetLoop_len api "actor" rec.title _ [] [] (by simp)

/-- C7 witness: concrete cap checks for the collector and for a concrete
recommendation result. -/
theorem collector_and_facet_caps_witness :
    (getMoviesExcluding api2 "Action" "genre" "Seed" 1).1.length ≤ 1 ∧
    (RecommendationsResponse.mk "Seed"
      ⟨[briefOf movieRec2, briefOf movieRec2], [], []⟩).recommendations.genreBased.length ≤ 20 :=
  ⟨collector_and_facet_caps.1 api2 "Action" "genre" "Seed" 1 (by decide),
   (collector_and_facet_caps.2 sortByRatingModel api2 "Seed"
     (RecommendationsResponse.mk "Seed" ⟨[briefOf movieRec2, briefOf movieRec2], [], []⟩)
     sortByRatingModel_ok rfl).1⟩

/-- C5 amended: the collector filters the excluded title against the
SEARCH HIT's title; whenever the upstream's detail lookup echoes the
queried title (detail title = queried title), no output candidate's
title case-insensitively equals the excluded title. -/
theorem collector_excludes_title (api : OMDbAPI) (term stype excl : String) (limit : Nat)
    (hconsist : ∀ t d, getMovieByTitle api t = Except.ok d → d.title = t) :
    ∀ b ∈ (getMoviesExcluding api term stype excl limit).1, eqFold b.title excl = false := by
  have hg : ∀ pb ∈ (getMoviesExcludingSt api term stype excl limit).movies,
      eqFold pb.2.title excl = false := by
    refine getMoviesExcludingSt_preserve api term stype excl limit
      (fun ms _ => ∀ pb ∈ ms, eqFold pb.2.title excl = false) (by simp) ?_
    intro ms set r d hok hmem hex hmatch hpos hP pb hpb
    rcases List.mem_append.mp hpb with h1 | h2
    · exact hP pb h1
    · simp only [List.mem_singleton] at h2
      subst h2
      have ht := hconsist r.title d hok
      show eqFold (briefOf d).title excl = false
      simp only [briefOf]
      rw [ht]
      exact hex
  intro b hb
  have hb' : b ∈ (getMoviesExcludingSt api term stype excl limit).movies.map Prod.snd := hb
  rcases List.mem_map.mp hb' with ⟨pb, hpb, rfl⟩
  exact hg pb hpb

/-- C5 witness: the amended exclusion property at a concrete collected
candidate of a title-echoing upstream. -/
theorem collector_excludes_title_witness :
    eqFold (MovieBrief.mk "M1" "2000" "8.0" "action" "D" "p").title "Seed" = false := by
  refine collector_excludes_title apiTitled "action" "genre" "Seed" 5 ?_
    (MovieBrief.mk "M1" "2000" "8.0" "action" "D" "p") ?_
  · intro t d h
    have hd : (⟨t, "2000", "action", "D", "A", "p", "8.0", "ttx", "True", ""⟩ : OMDbResponse) = d := by
      simpa [getMovieByTitle, makeRequest, apiTitled] using h
    rw [← hd]
  · decide

/-- C5 counterexample: the exclusion check compares the search hit's
title ("Matrix"), not the returned MovieBrief's title, so the collector
emits a candidate whose title case-insensitively equals the excluded
title "The Matrix". -/
theorem collector_excludes_title_cex :
    (getMoviesExcluding apiAlias "Action" "genre" "The Matrix" 5).1 = [briefOf matrixHitRec] ∧
    eqFold (briefOf matrixHitRec).title "The Matrix" = true :=
  ⟨rfl, by decide⟩

/-- C1 amended: on the recommendation path the genre facet is collected
by invoking the collector directly with each raw genre name obtained by
splitting the seed's genre text on ", " (pages 1 and 2); the Term
Expander plays no role there, so every genre-phase search call uses one
of the raw split genre names. -/
theorem recommendation_genre_terms_raw (api : OMDbAPI) (fav : String) (rec : OMDbResponse)
    (st : RecState) (hok : getMovieByTitle api fav = Except.ok rec)
    (hst : getRecommendationsSt api fav = Except.ok st) :
    ∀ t p, UpCall.search t p ∈ st.genreCalls →
      t ∈ goSplitCS rec.genre ∧ (p = 1 ∨ p = 2) := by
  rw [getRecommendationsSt_ok api fav rec hok] at hst
  injection hst with hst'
  subst hst'
  intro t p h
  have h' : UpCall.search t p ∈ (facetLoop api "genre" rec.title
      (goSplitCS rec.genre) [] []).2 := h
  rcases facetLoop_calls_search api "genre" rec.title (goSplitCS rec.genre) [] [] t p h' with
    h'' | hres
  · exact absurd h'' (by simp)
  · exact hres

/-- C1 counterexample: for the seed "Neo" with genre "Sci-Fi" the genre
facet issues only searches for the raw split genre name "Sci-Fi"; no
search for any of the Term Expander's proxy terms for "sci-fi"
("science fiction", ...) is ever issued, refuting the claim that the
genre facet is drawn from expanded proxy-term searches. -/
theorem recommendation_genre_terms_raw_cex :
    getRecommendationsSt api1 "Neo" = Except.ok recSt1 ∧
    recSt1.genreCalls = [UpCall.search "Sci-Fi" 1, UpCall.search "Sci-Fi" 2] ∧
    getGenreSearchTerms "Sci-Fi" = ["science fiction", "sci-fi", "space", "future", "alien"] ∧
    UpCall.search "science fiction" 1 ∉ recSt1.genreCalls ∧
    UpCall.search "sci-fi" 1 ∉ recSt1.genreCalls :=
  ⟨rfl, rfl, by decide, by decide, by decide⟩

/-- C1 witness: the amended theorem applied at a concrete genre-phase
search call of the seed "Neo". -/
theorem recommendation_genre_terms_raw_witness :
    "Sci-Fi" ∈ goSplitCS neoRec.genre ∧ ((1 : Nat) = 1 ∨ (1 : Nat) = 2) :=
  recommendation_genre_terms_raw api1 "Neo" neoRec recSt1 rfl rfl "Sci-Fi" 1 (by decide)

theorem substrB_nil_sub (l : List Nat) : substrB [] l = true := by
  cases l <;> simp [substrB, List.isPrefixOf]

/-- A substring of `l` is a substring of `l ++ l'`. -/
theorem substrB_append_right (sub l l' : List Nat) (h : substrB sub l = true) :
    substrB sub (l ++ l') = true := by
  induction l with
  | nil =>
    have hsub : sub = [] := by simpa [substrB] using h
    subst hsub
    exact substrB_nil_sub l'
  | cons c rest ih =>
    rw [List.cons_append]
    unfold substrB at h ⊢
    cases hpre : List.isPrefixOf sub (c :: rest) with
    | true =>
      have hp : sub <+: (c :: rest) := List.isPrefixOf_iff_prefix.mp hpre
      have hp' : sub <+: (c :: rest) ++ l' := hp.trans (List.prefix_append _ _)
      have : List.isPrefixOf sub (c :: (rest ++ l')) = true :=
        List.isPrefixOf_iff_prefix.mpr (by simpa using hp')
      rw [this]
      simp
    | false =>
      rw [hpre] at h
      simp only [Bool.false_or] at h
      have := ih h
      rw [this]
      simp

/-- The orchestrator's error message always contains "not found",
whatever the seed title. -/
theorem containsStr_prefix_notfound (s : String) :
    containsStr ("favorite movie not found: " ++ s) "not found" = true := by
  rcases s with ⟨sdata⟩
  show substrB (strCodes "not found")
    ((("favorite movie not found: " ++ (⟨sdata⟩ : String)).data).map Char.toNat) = true
  have hdata : ("favorite movie not found: " ++ (⟨sdata⟩ : String)).data =
      "favorite movie not found: ".data ++ sdata := rfl
  rw [hdata, List.map_append]
  exact substrB_append_right _ _ _ (by decide)

/-- C4 amended: whenever the seed-title lookup fails — for any reason,
upstream "not found" and transport/parse failures alike — the
recommendation operation returns the single error "favorite movie not
found: <title>", and the handler therefore answers 404 Not Found; the
two failure kinds are not distinguished on this path. -/
theorem seed_failure_reported_not_found (sortImpl : List MovieBrief → List MovieBrief)
    (api : OMDbAPI) (fav e : String) (hfail : getMovieByTitle api fav = Except.error e)
    (hne : ¬fav = "") :
    getRecommendations sortImpl api fav =
      Except.error ("favorite movie not found: " ++ fav) ∧
    recommendationsHandler sortImpl api fav = HandlerStatus.notFound := by
  have hrec : getRecommendations sortImpl api fav =
      Except.error ("favorite movie not found: " ++ fav) := by
    unfold getRecommendations
    rw [getRecommendationsSt_error api fav e hfail]
  refine ⟨hrec, ?_⟩
  simp [recommendationsHandler, hne, hrec, containsStr_prefix_notfound fav]

/-- C4 counterexample: a pure transport failure of the seed lookup (the
upstream error text contains no "not found") is nevertheless surfaced as
the "favorite movie not found" error and mapped to 404 by the handler. -/
theorem seed_transport_failure_maps_to_not_found_cex :
    apiDown.details "The Matrix" =
      Except.error "failed to make request: connection refused" ∧
    containsStr "failed to make request: connection refused" "not found" = false ∧
    getRecommendations sortByRatingModel apiDown "The Matrix" =
      Except.error "favorite movie not found: The Matrix" ∧
    recommendationsHandler sortByRatingModel apiDown "The Matrix" = HandlerStatus.notFound :=
  ⟨rfl, by decide, rfl, rfl⟩

/-- C4 witness: the amended theorem applied to a transport-failing
upstream at a concrete seed title. -/
theorem seed_failure_reported_not_found_witness :
    getRecommendations sortByRatingModel apiDown "X" =
      Except.error ("favorite movie not found: " ++ "X") ∧
    recommendationsHandler sortByRatingModel apiDown "X" = HandlerStatus.notFound :=
  seed_failure_reported_not_found sortByRatingModel apiDown "X"
    "failed to make request: connection refused" rfl (by decide)

/-- C6 counterexample: with `limit = 1` (cap `2`×1 = 2) the cap is
reached in the middle of page 1 of term "g", yet the collector still
issues the page-2 search, a further detail fetch ("M4") and the page-3
search, and the pre-truncation collection grows to 3 > 2×limit; only the
final output is capped at `limit`.  The full call log shows the search
and fetch calls issued after the cap was reached. -/
theorem genre_listing_no_page_short_circuit_cex :
    (getMoviesByGenreSt api6 "g" 1).calls =
      [UpCall.search "g" 1, UpCall.details "M1", UpCall.details "M2",
       UpCall.search "g" 2, UpCall.details "M4", UpCall.search "g" 3] ∧
    (getMoviesByGenreSt api6 "g" 1).movies.length = 3 ∧
    1 * 2 < (getMoviesByGenreSt api6 "g" 1).movies.length ∧
    (getMoviesByGenre sortByRatingModel api6 "g" 1).1.length = 1 :=
  ⟨rfl, rfl, by decide, rfl⟩

/-- C6 amended: genre-listing collection searches only the expanded
terms at pages 1–3; the output is capped at `limit` and sorted
descending by rating under the sort contract; and once the `2×limit` cap
is reached no FURTHER TERM is started — but the remaining pages of the
current term are still searched and may each contribute more candidates,
so the pre-truncation collection can exceed `2×limit` and there is no
page-level short-circuit. -/
theorem genre_listing_collection_shape (sortImpl : List MovieBrief → List MovieBrief)
    (api : OMDbAPI) (genre : String) (limit : Nat) :
    (∀ t p, UpCall.search t p ∈ (getMoviesByGenreSt api genre limit).calls →
      t ∈ getGenreSearchTerms genre ∧ (p = 1 ∨ p = 2 ∨ p = 3)) ∧
    (getMoviesByGenre sortImpl api genre limit).1.length ≤ limit ∧
    (SortSliceOK sortImpl →
      (getMoviesByGenre sortImpl api genre limit).1.Pairwise
        (fun x y => ratingQ y ≤ ratingQ x)) ∧
    (∀ (ts : List String) (st : CollectSt), limit * 2 ≤ st.movies.length →
      gmbgTerms api genre limit ts st = st) := by
  refine ⟨?_, ?_, ?_, ?_⟩
  · intro t p h
    exact getMoviesByGenreSt_calls_search api genre limit t p h
  · simp only [getMoviesByGenre]
    by_cases hlt : limit <
        (sortImpl ((getMoviesByGenreSt api genre limit).movies.map Prod.snd)).length
    · rw [if_pos hlt]
      simp only [List.length_take]
      omega
    · rw [if_neg hlt]
      omega
  · intro hsort
    have hpw := (hsort ((getMoviesByGenreSt api genre limit).movies.map Prod.snd)).2
    have hpw' := hpw.imp (fun hxy => (movieLess_false_iff _ _).mp hxy)
    simp only [getMoviesByGenre]
    by_cases hlt : limit <
        (sortImpl ((getMoviesByGenreSt api genre limit).movies.map Prod.snd)).length
    · rw [if_pos hlt]
      exact List.Pairwise.sublist (List.take_sublist _ _) hpw'
    · rw [if_neg hlt]
      exact hpw'
  · intro ts st h
    exact gmbgTerms_stop api genre limit ts st h

/-- C6 witness: concrete instantiations of the amended theorem's parts
on the page-2 search of term "g" and the sortedness of the output. -/
theorem genre_listing_collection_shape_witness :
    ("g" ∈ getGenreSearchTerms "g" ∧ ((2 : Nat) = 1 ∨ (2 : Nat) = 2 ∨ (2 : Nat) = 3)) ∧
    (getMoviesByGenre sortByRatingModel api6 "g" 1).1.Pairwise
      (fun x y => ratingQ y ≤ ratingQ x) :=
  ⟨(genre_listing_collection_shape sortByRatingModel api6 "g" 1).1 "g" 2 (by decide),
   (genre_listing_collection_shape sortByRatingModel api6 "g" 1).2.2.1 sortByRatingModel_ok⟩
